import Mathlib

/-!
Shallow embedding of the Soundcharts SDK request engine
(`src/soundcharts/api_util.py`): the single-request executor
`request_wrapper`, the period/pagination loop `request_looper`, the
chronological sort helper `sort_items_by_date`, and the transport
configuration installed by `setup`.  Dates are modelled as day numbers,
JSON payloads as opaque values, and the network as an oracle giving the
server's behaviour for each attempt or page.  The theorems at the end of
the file settle the specification claims against these definitions.
-/

namespace Soundcharts

/-- Python `logging.WARNING`. -/
def WARNING_LEVEL : Nat := 30

/-- Python `logging.ERROR`. -/
def ERROR_LEVEL : Nat := 40

/-- Server behaviour for one HTTP attempt: an HTTP response carrying a status
code, an opaque decoded JSON payload (used only when the status is 200) and
the error message `request_wrapper` would extract from the response body
(`errors[0].message`, else `message`, else the raw text); or a transport
failure (`requests.RequestException`, e.g. connection error or timeout). -/
inductive ServerReply where
  | http (status : Nat) (payload : Nat) (message : String)
  | netError
deriving DecidableEq

/-- What a `request_wrapper` call delivers to its caller: a normal return
(the decoded payload, or Python `None`), or an uncaught exception
(`RuntimeError`, the `ValueError` for a bad method, or the
`UnboundLocalError` escaping from the unknown-status branch). -/
inductive Outcome where
  | value (v : Option Nat)
  | runtimeError (msg : String)
  | valueError (msg : String)
  | unboundLocal (ident : String)
deriving DecidableEq

/-- Observable trace of one `request_wrapper` call: the outcome, how many
loop iterations (attempts) were started, and the `time.sleep` durations in
the order they were performed. -/
structure RunResult where
  outcome : Outcome
  attempts : Nat
  sleeps : List Nat
deriving DecidableEq

/-- ASCII lowering, modelling Python `str.lower` on method names. -/
def pyLower (s : String) : String :=
  String.mk (s.data.map Char.toLower)

/-- Method dispatch of lines 118-125: with no explicit method, POST when a
body is present and GET otherwise; an explicit method is accepted only when
it lowercases to "delete", anything else raises
`ValueError("Unsupported HTTP method: ...")`. -/
def selectMethod (method : Option String) (hasBody : Bool) : Except String String :=
  match method with
  | none => .ok (if hasBody then "POST" else "GET")
  | some m =>
    if pyLower m = "delete" then .ok "DELETE"
    else .error ("Unsupported HTTP method: " ++ m)

/-- Substring test on character lists, modelling Python `pat in s`. -/
def hasSubstrList (pat : List Char) : List Char → Bool
  | [] => decide (pat = [])
  | c :: rest => decide (pat = (c :: rest).take pat.length) || hasSubstrList pat rest

/-- The request-count throttle pattern of line 192:
`"maximum request count" in message`. -/
def hasRequestCountPattern (message : String) : Bool :=
  hasSubstrList "maximum request count".data message.data

/-- The retry loop of `request_wrapper` (lines 115-218), one iteration per
constructor step: `reply i` is the server's behaviour on the 0-based attempt
`i`, `remaining` the iterations of `for attempt in range(max_retries)` still
to run, `excLevel` the EXCEPTION_LOG_LEVEL threshold.  On HTTP 200 the
payload is returned; 404 yields None (or raises, per the threshold);
500/502/503/504 sleeps `retryDelay` and retries; a 429 whose message
contains the request-count pattern sleeps 30 and retries; any other
429/403/401 raises (or yields None); any other status hits
`logger.error(response.status_code, log_msg)` with `log_msg` unbound and the
resulting `UnboundLocalError` escapes; a transport error retries, raising
after the final attempt.  When the loop exhausts, the final fallthrough
raises (or yields None). -/
def runAttempts (excLevel : Nat) (url : String) (method : Option String)
    (hasBody : Bool) (reply : Nat → ServerReply) (retryDelay : Nat) :
    Nat → Nat → RunResult
  | _, 0 =>
    { outcome :=
        if ERROR_LEVEL ≥ excLevel then
          .runtimeError "Unhandled error or maximum retries exceeded."
        else .value none,
      attempts := 0, sleeps := [] }
  | i, r + 1 =>
    match selectMethod method hasBody with
    | .error m => { outcome := .valueError m, attempts := 1, sleeps := [] }
    | .ok _ =>
      match reply i with
      | .netError =>
        if r = 0 then
          { outcome := .runtimeError "Maximum retry attempts reached.",
            attempts := 1, sleeps := [] }
        else
          let rest := runAttempts excLevel url method hasBody reply retryDelay (i + 1) r
          { outcome := rest.outcome, attempts := rest.attempts + 1,
            sleeps := rest.sleeps }
      | .http status payload message =>
        if status = 200 then
          { outcome := .value (some payload), attempts := 1, sleeps := [] }
        else if status = 404 then
          { outcome :=
              if WARNING_LEVEL ≥ excLevel then
                .runtimeError ("404 Not Found: " ++ url ++ " — " ++ message)
              else .value none,
            attempts := 1, sleeps := [] }
        else if status = 500 ∨ status = 502 ∨ status = 503 ∨ status = 504 then
          let rest := runAttempts excLevel url method hasBody reply retryDelay (i + 1) r
          { outcome := rest.outcome, attempts := rest.attempts + 1,
            sleeps := retryDelay :: rest.sleeps }
        else if status = 429 ∨ status = 403 ∨ status = 401 then
          if status = 429 ∧ hasRequestCountPattern message then
            let rest := runAttempts excLevel url method hasBody reply retryDelay (i + 1) r
            { outcome := rest.outcome, attempts := rest.attempts + 1,
              sleeps := 30 :: rest.sleeps }
          else
            { outcome :=
                if ERROR_LEVEL ≥ excLevel then
                  .runtimeError (toString status ++ " Error: " ++ message)
                else .value none,
              attempts := 1, sleeps := [] }
        else
          { outcome := .unboundLocal "log_msg", attempts := 1, sleeps := [] }

/-- One `request_wrapper` call: up to `maxRetries` attempts from attempt 0. -/
def request_wrapper (excLevel : Nat) (url : String) (method : Option String)
    (hasBody : Bool) (reply : Nat → ServerReply) (maxRetries retryDelay : Nat) :
    RunResult :=
  runAttempts excLevel url method hasBody reply retryDelay 0 maxRetries

/-- The retry-related transport configuration globals. -/
structure TransportConfig where
  maxRetries : Nat
  retryDelay : Nat
deriving DecidableEq

/-- Module-load values of the globals: `MAX_RETRIES = 5`, `RETRY_DELAY = 10`
(lines 35-36). -/
def initialConfig : TransportConfig := { maxRetries := 5, retryDelay := 10 }

/-- `setup` (lines 40-71): replaces the transport configuration globals. -/
def setup (maxRetries retryDelay : Nat) (_old : TransportConfig) : TransportConfig :=
  { maxRetries := maxRetries, retryDelay := retryDelay }

/-- A `request_wrapper` call that passes no per-call `max_retries` or
`retry_delay`.  Python evaluated the default expressions
`max_retries=MAX_RETRIES, retry_delay=RETRY_DELAY` once, at module load
(line 89-90), so such a call uses the module-load values and ignores the
live configuration `_cfg` installed later by `setup`. -/
def request_wrapper_defaults (excLevel : Nat) (url : String)
    (method : Option String) (hasBody : Bool) (reply : Nat → ServerReply)
    (_cfg : TransportConfig) : RunResult :=
  request_wrapper excLevel url method hasBody reply
    initialConfig.maxRetries initialConfig.retryDelay

/-- Recognises the retried server-error statuses of lines 174-179. -/
def isServerErrorReply (rp : ServerReply) : Bool :=
  match rp with
  | .http st _ _ => st == 500 || st == 502 || st == 503 || st == 504
  | .netError => false

/-- The `page` object of a response envelope: the pagination cursor
`page.next` and the count `page.total`; either key may be absent. -/
structure Page where
  next : Option String
  total : Option Nat
deriving DecidableEq

/-- A non-empty JSON response envelope: the `items` list (absent for
single-object endpoints), the `page` object, and `other`, one opaque value
standing for every remaining field of the response. -/
structure Envelope (α : Type) where
  items : Option (List α)
  page : Option Page
  other : Nat
deriving DecidableEq

/-- Python truthiness of a cursor: `None` and the empty string are falsy. -/
def nextTruthy : Option String → Bool
  | none => false
  | some s => !s.isEmpty

/-- The merge step of lines 299-304: the first response seeds `results`
wholesale; afterwards, when both sides carry an `items` key, the *new*
response receives the concatenated items and replaces `results` (so every
non-item field now comes from the new response); when either side lacks
`items`, `results` is left unchanged. -/
def mergeResp {α : Type} (results : Option (Envelope α)) (r : Envelope α) :
    Envelope α :=
  match results with
  | none => r
  | some acc =>
    if acc.items.isSome ∧ r.items.isSome then
      { r with items := some (acc.items.getD [] ++ r.items.getD []) }
    else acc

/-- Lines 310-315: when `results` has a `page` key, set
`page.total = max(page.total or 0, len(items or []))`. -/
def updateTotal {α : Type} (e : Envelope α) : Envelope α :=
  match e.page with
  | none => e
  | some pg =>
    { e with page := some { pg with
        total := some (max (pg.total.getD 0) (e.items.getD []).length) } }

/-- The inner pagination loop (lines 293-320) over one window, driven by the
sequence of non-empty responses the server produces for the successive
cursors; the loop stops when the server list is exhausted (the next fetch
answering empty), when the merged result's `page.next` is falsy, or when the
running item count reaches a nonzero `limit`. -/
def pageLoop {α : Type} (limit : Nat) :
    List (Envelope α) → Option (Envelope α) → Option (Envelope α)
  | [], results => results
  | r :: rest, results =>
    let merged := mergeResp results r
    let nextGet := merged.page.bind Page.next
    let progress := (merged.items.getD []).length
    let merged2 := updateTotal merged
    if limit ≠ 0 ∧ limit ≤ progress then some merged2
    else if nextTruthy nextGet then pageLoop limit rest (some merged2)
    else some merged2

/-- `request_looper` for a call whose params carry no `startDate`/`endDate`
(the period loop then runs exactly one window, lines 275-325): the inner
pagination loop over the served responses, then the final truncation of
lines 327-328 (`results["items"][:limit]` when items are truthy and a
nonzero limit was supplied; a limit of 0 or None is falsy and disables
truncation).  `none` models the empty `results` dict. -/
def request_looper {α : Type} (limit : Nat) (resps : List (Envelope α)) :
    Option (Envelope α) :=
  match pageLoop limit resps none with
  | none => none
  | some e =>
    if (e.items.getD []).isEmpty = false ∧ limit ≠ 0 then
      some { e with items := some ((e.items.getD []).take limit) }
    else some e

/-- The concatenation of the items of a response sequence, in order. -/
def itemsConcat {α : Type} (resps : List (Envelope α)) : List α :=
  (resps.map (fun r => r.items.getD [])).flatten

/-- Every response before the last carries a truthy `page.next` cursor, so
the pagination loop can follow the whole chain. -/
def chainedResps {α : Type} (resps : List (Envelope α)) : Prop :=
  ∀ r ∈ resps.dropLast, nextTruthy (r.page.bind Page.next) = true

/-- The items of an optional accumulator (`[]` both for the missing
accumulator and for an accumulator without an `items` key). -/
def accItems {α : Type} : Option (Envelope α) → List α
  | none => []
  | some a => a.items.getD []

/-- One pass of the period loop (lines 282-286) issues the wire window
`(endDate - period, endDate)` with `period = min(dateDiff(start, end), 90)`,
then steps `endDate` back to the day before the window start; the loop
re-enters only while the bottom guard of line 324 (window start strictly
below the stepped end) and the `while period > 0` guard both pass.  Dates
are day numbers; `fuel` bounds the iteration count and the wrapper
`windows` always supplies enough. -/
def windowLoop : Nat → Int → Int → List (Int × Int)
  | 0, _, _ => []
  | fuel + 1, s, e =>
    let period := min (e - s) 90
    let ws := e - period
    (ws, e) :: (if s < ws - 1 ∧ 0 < period then windowLoop fuel s (ws - 1) else [])

/-- The sequence of `(startDate, endDate)` wire windows `request_looper`
issues for a requested range `[s, e]`, most recent first. -/
def windows (s e : Int) : List (Int × Int) :=
  windowLoop ((e - s).toNat + 1) s e

/-- A parameter dictionary: an association list from key to an integer value
(calendar dates as day numbers). -/
abbrev Dict := List (String × Int)

/-- A heap of dictionaries addressed by allocation index, to model Python
dict aliasing and in-place mutation. -/
abbrev Store := List Dict

/-- Key lookup in a dictionary. -/
def dictGet (d : Dict) (k : String) : Option Int :=
  (d.find? (fun kv => kv.1 == k)).map Prod.snd

/-- Key assignment in a dictionary value. -/
def dictSet (d : Dict) (k : String) (v : Int) : Dict :=
  if d.any (fun kv => kv.1 == k) then
    d.map (fun kv => if kv.1 == k then (k, v) else kv)
  else d ++ [(k, v)]

/-- `d.copy()`: allocate a fresh dictionary with the same entries. -/
def Store.copyOf (s : Store) (a : Nat) : Nat × Store :=
  (s.length, s ++ [s.getD a []])

/-- `d[k] = v` on the dictionary at address `a`. -/
def Store.writeKey (s : Store) (a : Nat) (k : String) (v : Int) : Store :=
  s.set a (dictSet (s.getD a []) k v)

/-- The parameter mutations of one `request_looper` call, against the heap:
line 263 rebinds `params` to `params.copy() if params else {}` (a fresh
dictionary in either branch), line 272 clamps a truthy `limit` to
`min(limit, 100)` on that copy, and lines 283-285 write `endDate` then
`startDate` on it once per window of `wins`.  Returns the address of the
private copy and the final heap. -/
def looperParamWrites (s : Store) (callerParams : Option Nat)
    (wins : List (Int × Int)) : Nat × Store :=
  let alloc :=
    match callerParams with
    | some a => if s.getD a [] ≠ [] then s.copyOf a else (s.length, s ++ [[]])
    | none => (s.length, s ++ [[]])
  let p := alloc.1
  let s1 := alloc.2
  let s2 :=
    match dictGet (s1.getD p []) "limit" with
    | some v => if v ≠ 0 then s1.writeKey p "limit" (min v 100) else s1
    | none => s1
  let s3 := wins.foldl (fun st (w : Int × Int) =>
    (st.writeKey p "endDate" w.2).writeKey p "startDate" w.1) s2
  (p, s3)

/-- An element of a result's `items` list as consumed by
`sort_items_by_date`: the chosen date-bearing field (the `key` parameter,
default "date") and one opaque value standing for the rest of the item. -/
structure SortItem where
  date : String
  payload : Nat
deriving DecidableEq

/-- An aggregated result as consumed by `sort_items_by_date`: the `items`
list plus one opaque value standing for every other field. -/
structure AggResult where
  items : List SortItem
  other : Nat
deriving DecidableEq

/-- Split a character list on a separator (Python `str.split(sep)`). -/
def splitOnChar (sep : Char) : List Char → List (List Char)
  | [] => [[]]
  | c :: rest =>
    let r := splitOnChar sep rest
    if c = sep then [] :: r
    else
      match r with
      | [] => [[c]]
      | h :: t => (c :: h) :: t

/-- Digits-only numeral value of a character list. -/
def digitsVal (l : List Char) : Option Nat :=
  if l ≠ [] ∧ l.all Char.isDigit then
    some (l.foldl (fun acc c => acc * 10 + (c.toNat - 48)) 0)
  else none

/-- A numeral of exactly `n` digits. -/
def fixedNat (l : List Char) (n : Nat) : Option Nat :=
  if l.length = n then digitsVal l else none

/-- Parse "YYYY-MM-DD" into a key that is order-isomorphic to the calendar
order (lexicographic in year, month, day). -/
def parseDate (l : List Char) : Option Nat :=
  match splitOnChar '-' l with
  | [y, m, d] => do
    let yv ← fixedNat y 4
    let mv ← fixedNat m 2
    let dv ← fixedNat d 2
    if 1 ≤ mv ∧ mv ≤ 12 ∧ 1 ≤ dv ∧ dv ≤ 31 then
      some ((yv * 13 + mv) * 32 + dv)
    else none
  | _ => none

/-- Parse "HH:MM:SS" into the second count of the day. -/
def parseTime (l : List Char) : Option Nat :=
  match splitOnChar ':' l with
  | [h, m, sec] => do
    let hv ← fixedNat h 2
    let mv ← fixedNat m 2
    let sv ← fixedNat sec 2
    if hv ≤ 23 ∧ mv ≤ 59 ∧ sv ≤ 59 then
      some ((hv * 60 + mv) * 60 + sv)
    else none
  | _ => none

/-- Modelled `datetime.fromisoformat` on the shapes the API emits (a date,
or date "T" time): an encoding of the timestamp that is order-isomorphic to
chronological order, `none` when parsing fails (Python `ValueError`). -/
def fromisoformat (l : List Char) : Option Nat :=
  match splitOnChar 'T' l with
  | [d] => (parseDate d).map (· * 86400)
  | [d, t] => do
    let dv ← parseDate d
    let tv ← parseTime t
    some (dv * 86400 + tv)
  | _ => none

/-- The sort key of lines 336-338: the item's date field with every "Z"
removed (Python `x[key].replace("Z", "")`), parsed as an ISO timestamp. -/
def itemKey (it : SortItem) : Option Nat :=
  fromisoformat (it.date.data.filter (fun c => c ≠ 'Z'))

/-- The parsed key, defaulted (only read under the all-parseable guard). -/
def itemKeyD (it : SortItem) : Nat := (itemKey it).getD 0

/-- The comparison `sorted` effectively uses: ascending by key, or, with
`reverse=True`, descending by key; in both directions equal keys compare
true so that a stable sort keeps tied items in their original order, exactly
as Python `sorted` does. -/
def sortRel (reverse : Bool) (a b : SortItem) : Prop :=
  if reverse then itemKeyD b ≤ itemKeyD a else itemKeyD a ≤ itemKeyD b

instance sortRelDecidable (reverse : Bool) : DecidableRel (sortRel reverse) :=
  fun a b => by unfold sortRel; infer_instance

instance sortRelTotal (reverse : Bool) : IsTotal SortItem (sortRel reverse) :=
  ⟨by intro a b; unfold sortRel; split <;> omega⟩

instance sortRelTrans (reverse : Bool) : IsTrans SortItem (sortRel reverse) :=
  ⟨by intro a b c; unfold sortRel; split <;> omega⟩

/-- `sort_items_by_date` (lines 333-341): sort the items in place by the
parsed date key, ascending or descending, with Python's stable sort
(insertion sort under `sortRel` computes exactly that function); `none`
models the `ValueError` raised when some item's date does not parse. -/
def sort_items_by_date (res : AggResult) (reverse : Bool) : Option AggResult :=
  if res.items.all (fun it => (itemKey it).isSome) then
    some { res with items := res.items.insertionSort (sortRel reverse) }
  else none

instance chainedRespsDecidable {α : Type} (resps : List (Envelope α)) :
    Decidable (chainedResps resps) := by
  unfold chainedResps; infer_instance

/-- A server answering every attempt with HTTP 502. -/
def replyBoom : Nat → ServerReply := fun _ => .http 502 0 "boom"

/-- A server whose first answer is a request-count throttle and whose second
is a success. -/
def replyThrottle : Nat → ServerReply := fun i =>
  if i = 0 then .http 429 0 "the maximum request count was reached"
  else .http 200 77 ""

/-- A server answering every attempt with HTTP 403. -/
def replyDenied : Nat → ServerReply := fun _ => .http 403 0 "denied"

/-- A server answering every attempt with HTTP 418 (a status outside every
handled class). -/
def replyTeapot : Nat → ServerReply := fun _ => .http 418 0 "teapot"

/-- A server answering every attempt with HTTP 500. -/
def replyServerErr : Nat → ServerReply := fun _ => .http 500 0 "err"

/-- A server answering every attempt with HTTP 200. -/
def replyOk : Nat → ServerReply := fun _ => .http 200 0 ""

/-- Two chained page responses used to instantiate the pagination theorems. -/
def pagesTwo : List (Envelope Nat) :=
  [{ items := some [1, 2], page := some { next := some "c", total := some 7 },
     other := 1 },
   { items := some [3], page := some { next := none, total := some 2 },
     other := 9 }]

/-- A concrete aggregated result with two distinct parseable dates. -/
def resDistinct : AggResult :=
  { items := [{ date := "2021-03-04", payload := 0 },
              { date := "2020-01-02T03:04:05Z", payload := 1 }],
    other := 3 }

/-- `resDistinct` sorted ascending. -/
def resDistinctAsc : AggResult :=
  { items := [{ date := "2020-01-02T03:04:05Z", payload := 1 },
              { date := "2021-03-04", payload := 0 }],
    other := 3 }

/-- A concrete aggregated result whose two items share one timestamp. -/
def resTied : AggResult :=
  { items := [{ date := "2020-01-01", payload := 0 },
              { date := "2020-01-01", payload := 1 }],
    other := 0 }

/-- A one-dictionary heap holding the caller's params. -/
def storeOne : Store := [[("limit", 500), ("endDate", 40)]]

end Soundcharts

namespace Soundcharts

/-! Theorems.  Each claim theorem carries the claim id in its doc comment;
auxiliary lemmas precede the claim theorems they support. -/

theorem runAttempts_server_errors (url : String) (hasBody : Bool)
    (reply : Nat → ServerReply) (rd : Nat)
    (h : ∀ i, isServerErrorReply (reply i) = true) :
    ∀ (r i : Nat), runAttempts ERROR_LEVEL url none hasBody reply rd i r =
      { outcome := .runtimeError "Unhandled error or maximum retries exceeded.",
        attempts := r, sleeps := List.replicate r rd } := by
  intro r
  induction r with
  | zero =>
    intro i
    simp [runAttempts]
  | succ n ih =>
    intro i
    have hi := h i
    unfold runAttempts
    match hrep : reply i with
    | .netError => rw [hrep] at hi; simp [isServerErrorReply] at hi
    | .http st p m =>
      rw [hrep] at hi
      simp only [isServerErrorReply, Bool.or_eq_true, beq_iff_eq] at hi
      simp only [selectMethod]
      rcases hi with ((h5 | h5) | h5) | h5 <;> subst h5 <;>
        simp [ih (i + 1), List.replicate_succ]

/-- Claim C3: when the server answers every attempt with HTTP 500, 502, 503
or 504, `request_wrapper` starts exactly `max_retries` attempts, sleeps
`retry_delay` seconds between consecutive attempts (the trace is one
`retry_delay` sleep after every attempt, the last included), and after the
last attempt delivers the fatal `RuntimeError` of the final fallthrough
under the default exception threshold. -/
theorem request_wrapper_exhausts_server_errors
    (url : String) (hasBody : Bool) (reply : Nat → ServerReply)
    (mr rd : Nat) (hmr : 1 ≤ mr)
    (h : ∀ i, isServerErrorReply (reply i) = true) :
    (request_wrapper ERROR_LEVEL url none hasBody reply mr rd).attempts = mr ∧
    (request_wrapper ERROR_LEVEL url none hasBody reply mr rd).sleeps =
      List.replicate mr rd ∧
    (request_wrapper ERROR_LEVEL url none hasBody reply mr rd).outcome =
      .runtimeError "Unhandled error or maximum retries exceeded." := by
  unfold request_wrapper
  rw [runAttempts_server_errors url hasBody reply rd h mr 0]
  exact ⟨rfl, rfl, rfl⟩

theorem request_wrapper_exhausts_server_errors_witness :
    (request_wrapper ERROR_LEVEL "u" none false replyBoom 3 7).attempts = 3 ∧
    (request_wrapper ERROR_LEVEL "u" none false replyBoom 3 7).sleeps =
      List.replicate 3 7 ∧
    (request_wrapper ERROR_LEVEL "u" none false replyBoom 3 7).outcome =
      .runtimeError "Unhandled error or maximum retries exceeded." :=
  request_wrapper_exhausts_server_errors "u" false replyBoom 3 7 (by norm_num)
    (fun _ => rfl)

theorem runAttempts_attempts_pos (excLevel : Nat) (url : String)
    (method : Option String) (hasBody : Bool) (reply : Nat → ServerReply)
    (rd i r : Nat) (hr : 1 ≤ r) :
    1 ≤ (runAttempts excLevel url method hasBody reply rd i r).attempts := by
  obtain ⟨n, rfl⟩ : ∃ n, r = n + 1 := ⟨r - 1, by omega⟩
  unfold runAttempts
  cases hsel : selectMethod method hasBody with
  | error m => simp
  | ok mm =>
    cases hrep : reply i with
    | netError =>
      by_cases h0 : n = 0 <;> simp [h0]
    | http st p m =>
      repeat' split
      all_goals dsimp only
      all_goals omega

theorem throttle_retry_aux (url : String) (hasBody : Bool)
    (reply : Nat → ServerReply) (mr rd p : Nat) (msg : String)
    (hmr : 2 ≤ mr) (h0 : reply 0 = .http 429 p msg)
    (hpat : hasRequestCountPattern msg = true) :
    (request_wrapper ERROR_LEVEL url none hasBody reply mr rd).sleeps.head? =
      some 30 ∧
    2 ≤ (request_wrapper ERROR_LEVEL url none hasBody reply mr rd).attempts := by
  match mr, hmr with
  | n + 2, _ =>
    unfold request_wrapper runAttempts
    simp only [selectMethod, h0, hpat]
    norm_num
    have hp := runAttempts_attempts_pos ERROR_LEVEL url none hasBody reply rd 1
      (n + 1) (by omega)
    omega

theorem auth_fatal_aux (url : String) (hasBody : Bool)
    (reply : Nat → ServerReply) (mr rd st p : Nat) (msg : String)
    (hmr : 1 ≤ mr) (h0 : reply 0 = .http st p msg)
    (hst : (st = 429 ∧ hasRequestCountPattern msg = false) ∨ st = 403 ∨ st = 401) :
    request_wrapper ERROR_LEVEL url none hasBody reply mr rd =
      { outcome := .runtimeError (toString st ++ " Error: " ++ msg),
        attempts := 1, sleeps := [] } := by
  match mr, hmr with
  | n + 1, _ =>
    unfold request_wrapper runAttempts
    simp only [selectMethod, h0]
    rcases hst with ⟨h429, hpat⟩ | h | h
    · subst h429; simp [hpat]
    · subst h; norm_num
    · subst h; norm_num

/-- Claim C4: a first-attempt 429 whose extracted message contains the
request-count pattern makes `request_wrapper` sleep 30 seconds and start a
second attempt instead of failing; a first-attempt 429 without the pattern,
or a first-attempt 403 or 401, fails on attempt one with no sleep and the
status-carrying `RuntimeError`, under the default exception threshold. -/
theorem request_wrapper_429_dispatch :
    (∀ (url : String) (hasBody : Bool) (reply : Nat → ServerReply)
        (mr rd p : Nat) (msg : String), 2 ≤ mr →
        reply 0 = .http 429 p msg → hasRequestCountPattern msg = true →
        (request_wrapper ERROR_LEVEL url none hasBody reply mr rd).sleeps.head? =
          some 30 ∧
        2 ≤ (request_wrapper ERROR_LEVEL url none hasBody reply mr rd).attempts) ∧
    (∀ (url : String) (hasBody : Bool) (reply : Nat → ServerReply)
        (mr rd st p : Nat) (msg : String), 1 ≤ mr →
        reply 0 = .http st p msg →
        ((st = 429 ∧ hasRequestCountPattern msg = false) ∨ st = 403 ∨ st = 401) →
        request_wrapper ERROR_LEVEL url none hasBody reply mr rd =
          { outcome := .runtimeError (toString st ++ " Error: " ++ msg),
            attempts := 1, sleeps := [] }) :=
  ⟨fun url hasBody reply mr rd p msg hmr h0 hpat =>
      throttle_retry_aux url hasBody reply mr rd p msg hmr h0 hpat,
    fun url hasBody reply mr rd st p msg hmr h0 hst =>
      auth_fatal_aux url hasBody reply mr rd st p msg hmr h0 hst⟩

theorem request_wrapper_429_dispatch_witness :
    ((request_wrapper ERROR_LEVEL "u" none false replyThrottle 5 10).sleeps.head? =
        some 30 ∧
      2 ≤ (request_wrapper ERROR_LEVEL "u" none false replyThrottle 5 10).attempts) ∧
    request_wrapper ERROR_LEVEL "u" none false replyDenied 5 10 =
      { outcome := .runtimeError "403 Error: denied",
        attempts := 1, sleeps := [] } := by
  constructor
  · exact request_wrapper_429_dispatch.1 "u" false replyThrottle 5 10 0
      "the maximum request count was reached" (by norm_num) (by decide) (by decide)
  · have h := request_wrapper_429_dispatch.2 "u" false replyDenied 5 10 403 0
      "denied" (by norm_num) (by decide) (Or.inr (Or.inl rfl))
    exact h.trans (by decide)

/-- Claim C5 (code bug): with no explicit method, `request_wrapper` picks
POST when a body is present and GET otherwise, an explicit "delete" (any
case) is honoured, and an unsupported value raises an immediate
`ValueError` with no retry — but an explicit "GET" or "POST" also lands in
the `ValueError` branch, contradicting the documented GET/POST/DELETE
contract: only "delete" survives the `elif method.lower() == "delete"`
dispatch. -/
theorem method_selection_behaviour :
    selectMethod (some "GET") false = .error "Unsupported HTTP method: GET" ∧
    selectMethod (some "POST") true = .error "Unsupported HTTP method: POST" ∧
    selectMethod (some "delete") false = .ok "DELETE" ∧
    selectMethod (some "DELETE") false = .ok "DELETE" ∧
    selectMethod none true = .ok "POST" ∧
    selectMethod none false = .ok "GET" ∧
    selectMethod (some "PUT") false = .error "Unsupported HTTP method: PUT" ∧
    request_wrapper ERROR_LEVEL "u" (some "GET") false replyOk 5 10 =
      { outcome := .valueError "Unsupported HTTP method: GET",
        attempts := 1, sleeps := [] } := by
  refine ⟨?_, ?_, ?_, ?_, ?_, ?_, ?_, ?_⟩ <;> first | rfl | decide

/-- Claim C7 (code bug): a status outside the handled classes (here 418)
does fail on the first attempt with no retry, but the failure that escapes
is the `UnboundLocalError` from `logger.error(response.status_code,
log_msg)` — `log_msg` is never assigned on this path — not a descriptive
error carrying the status and server message as the spec requires (the
`RuntimeError("HTTP 418: teapot")` on the next line is unreachable). -/
theorem unknown_status_unbound_local :
    request_wrapper ERROR_LEVEL "u" none false replyTeapot 5 10 =
      { outcome := .unboundLocal "log_msg", attempts := 1, sleeps := [] } ∧
    Outcome.unboundLocal "log_msg" ≠ Outcome.runtimeError "HTTP 418: teapot" := by
  decide

/-- Claim C8 (code bug): the per-call default for `max_retries` was captured
from the module-load value `MAX_RETRIES = 5` when `request_wrapper` was
defined, so after `setup(..., max_retries=2)` a call passing no override
still starts 5 attempts against persistent 500s, not at most 2: the default
attempt bound is not read from the live transport configuration. -/
theorem defaults_frozen_at_module_load :
    (request_wrapper_defaults ERROR_LEVEL "u" none false replyServerErr
        (setup 2 10 initialConfig)).attempts = 5 ∧
    (setup 2 10 initialConfig).maxRetries = 2 ∧
    ¬ (5 : Nat) ≤ 2 := by
  decide

theorem windowLoop_spec : ∀ (fuel : Nat) (s e : Int), 0 < e - s →
    (e - s).toNat < fuel →
    windowLoop fuel s e ≠ [] ∧
    (windowLoop fuel s e).head?.map Prod.snd = some e ∧
    (windowLoop fuel s e).getLast?.map Prod.fst =
      some (if (e - s) % 91 = 0 then s + 1 else s) ∧
    (∀ w ∈ windowLoop fuel s e, w.1 ≤ w.2 ∧ w.2 - w.1 ≤ 90) ∧
    List.Chain' (fun w1 w2 => w2.2 = w1.1 - 1) (windowLoop fuel s e) ∧
    (windowLoop fuel s e).length = ((e - s - 1) / 91 + 1).toNat := by
  intro fuel
  induction fuel with
  | zero => intro s e hd hf; omega
  | succ f ih =>
    intro s e hd hf
    have hstep : windowLoop (f + 1) s e =
        (e - min (e - s) 90, e) ::
          (if s < e - min (e - s) 90 - 1 ∧ 0 < min (e - s) 90 then
            windowLoop f s (e - min (e - s) 90 - 1)
          else []) := rfl
    rcases lt_trichotomy (e - s) 91 with hlt | heq | hgt
    · have hmin : min (e - s) 90 = e - s := by omega
      have hws : e - (e - s) = s := by omega
      rw [hstep, hmin, hws]
      rw [if_neg (by omega)]
      refine ⟨by simp, by simp, ?_, ?_, by simp, ?_⟩
      · simp only [List.getLast?_singleton, Option.map_some']
        rw [if_neg (by omega)]
      · intro w hw
        rw [List.mem_singleton] at hw
        subst hw
        constructor <;> [omega; omega]
      · simp only [List.length_singleton]
        omega
    · have hmin : min (e - s) 90 = 90 := by omega
      have hws : e - 90 = s + 1 := by omega
      rw [hstep, hmin, hws]
      rw [if_neg (by omega)]
      refine ⟨by simp, by simp, ?_, ?_, by simp, ?_⟩
      · simp only [List.getLast?_singleton, Option.map_some']
        rw [if_pos (by omega)]
      · intro w hw
        rw [List.mem_singleton] at hw
        subst hw
        constructor <;> [omega; omega]
      · simp only [List.length_singleton]
        omega
    · have hmin : min (e - s) 90 = 90 := by omega
      rw [hstep, hmin]
      rw [if_pos (by omega)]
      rw [show e - 90 - 1 = e - 91 from by omega]
      obtain ⟨hne, hhead, hlast, hmem, hchain, hlen⟩ :=
        ih s (e - 91) (by omega) (by omega)
      refine ⟨by simp, by simp, ?_, ?_, ?_, ?_⟩
      · cases hL : windowLoop f s (e - 91) with
        | nil => exact absurd hL hne
        | cons y ys =>
          rw [hL] at hlast
          rw [List.getLast?_cons_cons]
          rw [hlast]
          rw [show (e - 91 - s) % 91 = (e - s) % 91 from by omega]
      · intro w hw
        rcases List.mem_cons.mp hw with hw | hw
        · subst hw; constructor <;> [omega; omega]
        · exact hmem w hw
      · refine List.chain'_cons'.mpr ⟨?_, hchain⟩
        intro y hy
        cases hL : (windowLoop f s (e - 91)).head? with
        | none => rw [hL] at hy; exact absurd hy (by simp)
        | some y0 =>
          rw [hL] at hy hhead
          simp only [Option.map_some', Option.some.injEq] at hhead
          simp only [Option.mem_def, Option.some.injEq] at hy
          subst hy
          omega
      · simp only [List.length_cons, hlen]
        omega

/-- Claim C2 (amended): for a requested range of more than 90 days, the wire
windows are issued most recent first, the first window ends at the requested
endDate, every window is non-empty and spans at most 90 days, consecutive
windows are exactly adjacent (the later-issued window ends the day before
the earlier one starts: no gap and no overlap between them), and the chain
reaches back exactly to the requested startDate — except when the range
length is a multiple of 91 days, in which case the final window stops at
startDate + 1 and the requested start day is never queried.  A 200-day
range yields exactly three windows. -/
theorem windows_cover_amended (s e : Int) (h : 90 < e - s) :
    windows s e ≠ [] ∧
    (windows s e).head?.map Prod.snd = some e ∧
    (windows s e).getLast?.map Prod.fst =
      some (if (e - s) % 91 = 0 then s + 1 else s) ∧
    (∀ w ∈ windows s e, w.1 ≤ w.2 ∧ w.2 - w.1 ≤ 90) ∧
    List.Chain' (fun w1 w2 => w2.2 = w1.1 - 1) (windows s e) ∧
    (e - s = 200 → (windows s e).length = 3) := by
  obtain ⟨h1, h2, h3, h4, h5, h6⟩ :=
    windowLoop_spec ((e - s).toNat + 1) s e (by omega) (by omega)
  refine ⟨h1, h2, h3, h4, h5, fun h200 => ?_⟩
  show (windowLoop ((e - s).toNat + 1) s e).length = 3
  rw [h6]
  omega

theorem windows_cover_amended_witness :
    windows 0 200 ≠ [] ∧
    (windows 0 200).head?.map Prod.snd = some 200 ∧
    (windows 0 200).getLast?.map Prod.fst = some 0 ∧
    (windows 0 200).length = 3 := by
  obtain ⟨h1, h2, h3, _, _, h6⟩ := windows_cover_amended 0 200 (by norm_num)
  refine ⟨h1, h2, ?_, h6 (by norm_num)⟩
  rw [h3]
  norm_num

/-- Claim C2 (counterexample): a 91-day range — strictly more than 90 days —
produces the single wire window (1, 91) for the requested range [0, 91]: the
requested start day 0 lies in no issued window, so the windows do not
partition the requested range (there is a gap at the start). -/
theorem windows_gap_at_91_days :
    windows 0 91 = [(1, 91)] ∧ ((1 : Int) ≤ 0 ∧ (0 : Int) ≤ 91) = False := by
  constructor
  · decide
  · simp

theorem updateTotal_items {α : Type} (e : Envelope α) :
    (updateTotal e).items = e.items := by
  unfold updateTotal
  cases hpg : e.page <;> simp

theorem updateTotal_other {α : Type} (e : Envelope α) :
    (updateTotal e).other = e.other := by
  unfold updateTotal
  cases hpg : e.page <;> simp

theorem updateTotal_page {α : Type} (e : Envelope α) :
    (updateTotal e).page = e.page.map (fun pg =>
      { pg with total := some (max (pg.total.getD 0) (e.items.getD []).length) }) := by
  unfold updateTotal
  cases hpg : e.page <;> simp [hpg]

theorem mergeResp_items {α : Type} (acc : Option (Envelope α)) (r : Envelope α)
    (hacc : ∀ a, acc = some a → a.items.isSome = true)
    (hr : r.items.isSome = true) :
    (mergeResp acc r).items = some (accItems acc ++ r.items.getD []) := by
  obtain ⟨l, hl⟩ := Option.isSome_iff_exists.mp hr
  cases acc with
  | none => simp [mergeResp, accItems, hl]
  | some a =>
    have ha := hacc a rfl
    simp [mergeResp, accItems, ha, hr, hl]

theorem mergeResp_other {α : Type} (acc : Option (Envelope α)) (r : Envelope α)
    (hacc : ∀ a, acc = some a → a.items.isSome = true)
    (hr : r.items.isSome = true) :
    (mergeResp acc r).other = r.other := by
  cases acc with
  | none => rfl
  | some a =>
    have ha := hacc a rfl
    simp [mergeResp, ha, hr]

theorem mergeResp_page {α : Type} (acc : Option (Envelope α)) (r : Envelope α)
    (hacc : ∀ a, acc = some a → a.items.isSome = true)
    (hr : r.items.isSome = true) :
    (mergeResp acc r).page = r.page := by
  cases acc with
  | none => rfl
  | some a =>
    have ha := hacc a rfl
    simp [mergeResp, ha, hr]

theorem chainedResps_cons {α : Type} (r : Envelope α) (rest : List (Envelope α))
    (h : chainedResps (r :: rest)) : chainedResps rest := by
  intro x hx
  apply h
  cases rest with
  | nil => simp at hx
  | cons y ys =>
    rw [List.dropLast_cons₂]
    exact List.mem_cons_of_mem r hx

theorem chainedResps_head {α : Type} (r y : Envelope α) (ys : List (Envelope α))
    (h : chainedResps (r :: y :: ys)) :
    nextTruthy (r.page.bind Page.next) = true := by
  apply h
  rw [List.dropLast_cons₂]
  exact List.mem_cons_self r _

theorem itemsConcat_cons {α : Type} (r : Envelope α) (rest : List (Envelope α)) :
    itemsConcat (r :: rest) = r.items.getD [] ++ itemsConcat rest := by
  simp [itemsConcat]

theorem request_looper_eq_some {α : Type} (limit : Nat)
    (resps : List (Envelope α)) (e0 : Envelope α)
    (h : pageLoop limit resps none = some e0) :
    request_looper limit resps =
      if (e0.items.getD []).isEmpty = false ∧ limit ≠ 0 then
        some { e0 with items := some ((e0.items.getD []).take limit) }
      else some e0 := by
  unfold request_looper
  rw [h]

theorem pageLoop_items_spec {α : Type} (limit : Nat) :
    ∀ (resps : List (Envelope α)) (acc : Option (Envelope α)),
      (∀ a, acc = some a → a.items.isSome = true) →
      (∀ r ∈ resps, r.items.isSome = true) →
      chainedResps resps →
      (resps ≠ [] ∨ acc ≠ none) →
      ∃ e, pageLoop limit resps acc = some e ∧ ∃ L,
        e.items = some L ∧
        (L = accItems acc ++ itemsConcat resps ∨
          (limit ≠ 0 ∧ limit ≤ L.length ∧
            ∃ t, L ++ t = accItems acc ++ itemsConcat resps)) := by
  intro resps
  induction resps with
  | nil =>
    intro acc hacc hitems hchain hne
    rcases hne with hne | hne
    · exact absurd rfl hne
    · cases acc with
      | none => exact absurd rfl hne
      | some a =>
        obtain ⟨l, hl⟩ := Option.isSome_iff_exists.mp (hacc a rfl)
        exact ⟨a, rfl, l, hl, Or.inl (by simp [accItems, itemsConcat, hl])⟩
  | cons r rest ih =>
    intro acc hacc hitems hchain hne
    have hr : r.items.isSome = true := hitems r (List.mem_cons_self r rest)
    have hmi := mergeResp_items acc r hacc hr
    simp only [pageLoop]
    by_cases hlim : limit ≠ 0 ∧ limit ≤ ((mergeResp acc r).items.getD []).length
    · rw [if_pos hlim]
      refine ⟨updateTotal (mergeResp acc r), rfl,
        accItems acc ++ r.items.getD [], ?_, ?_⟩
      · rw [updateTotal_items, hmi]
      · right
        refine ⟨hlim.1, ?_, itemsConcat rest, ?_⟩
        · have h2 := hlim.2
          rw [hmi] at h2
          simpa using h2
        · rw [itemsConcat_cons, List.append_assoc]
    · rw [if_neg hlim]
      by_cases hnext : nextTruthy ((mergeResp acc r).page.bind Page.next) = true
      · rw [if_pos hnext]
        have haccit : accItems (some (updateTotal (mergeResp acc r))) =
            accItems acc ++ r.items.getD [] := by
          simp [accItems, updateTotal_items, hmi]
        obtain ⟨e, he, L, hL, hcase⟩ := ih (some (updateTotal (mergeResp acc r)))
          (by
            intro a ha
            rw [Option.some.injEq] at ha
            rw [← ha, updateTotal_items, hmi]
            rfl)
          (fun x hx => hitems x (List.mem_cons_of_mem r hx))
          (chainedResps_cons r rest hchain)
          (Or.inr (by simp))
        refine ⟨e, he, L, hL, ?_⟩
        rcases hcase with hc | ⟨hl0, hl1, t, ht⟩
        · left
          rw [hc, haccit, itemsConcat_cons, List.append_assoc]
        · right
          exact ⟨hl0, hl1, t,
            by rw [ht, haccit, itemsConcat_cons, List.append_assoc]⟩
      · rw [if_neg hnext]
        have hrest : rest = [] := by
          cases rest with
          | nil => rfl
          | cons y ys =>
            have ht := chainedResps_head r y ys hchain
            rw [← mergeResp_page acc r hacc hr] at ht
            exact absurd ht hnext
        subst hrest
        refine ⟨updateTotal (mergeResp acc r), rfl,
          accItems acc ++ r.items.getD [], ?_, Or.inl ?_⟩
        · rw [updateTotal_items, hmi]
        · simp [itemsConcat]

/-- Claim C1: driven by a chained sequence of non-empty page responses (each
response before the last supplying a truthy `page.next`, each carrying an
`items` key), `request_looper` returns an aggregate whose items are the
concatenation of the responses' items in served order, and, when a nonzero
`limit` was supplied, exactly the first `limit` entries (in the `List.take`
sense) of that concatenation. -/
theorem request_looper_concat_truncate {α : Type} (limit : Nat)
    (resps : List (Envelope α)) (hne : resps ≠ [])
    (hitems : ∀ r ∈ resps, r.items.isSome = true)
    (hchain : chainedResps resps) :
    ∃ e, request_looper limit resps = some e ∧
      e.items = some (if limit = 0 then itemsConcat resps
        else (itemsConcat resps).take limit) := by
  obtain ⟨e0, hrun, L, hL, hcase⟩ :=
    pageLoop_items_spec limit resps none (by intro a ha; cases ha) hitems hchain
      (Or.inl hne)
  have hA : accItems (none : Option (Envelope α)) ++ itemsConcat resps =
      itemsConcat resps := by
    simp [accItems]
  rw [hA] at hcase
  rw [request_looper_eq_some limit resps e0 hrun]
  by_cases hl0 : limit = 0
  · subst hl0
    rw [if_neg (fun hn => hn.2 rfl)]
    rcases hcase with hc | ⟨h0, _, _⟩
    · exact ⟨e0, rfl, by rw [hL, hc]; simp⟩
    · exact absurd rfl h0
  · by_cases hemp : (e0.items.getD []).isEmpty = false
    · rw [if_pos ⟨hemp, hl0⟩]
      refine ⟨_, rfl, ?_⟩
      show some ((e0.items.getD []).take limit) = _
      simp only [hL, Option.getD_some]
      rw [if_neg hl0]
      congr 1
      rcases hcase with hc | ⟨_, hlen, t, ht⟩
      · rw [hc]
      · rw [← ht]
        simp [List.take_append_eq_append_take, Nat.sub_eq_zero_of_le hlen]
    · rw [if_neg (fun hn => hemp hn.1)]
      have hLnil : L = [] := by
        rw [hL] at hemp
        simpa using hemp
      refine ⟨e0, rfl, ?_⟩
      rcases hcase with hc | ⟨_, hlen, _, _⟩
      · rw [hL, hLnil, ← hc, hLnil]
        simp [hl0]
      · rw [hLnil] at hlen
        simp at hlen
        exact absurd hlen hl0

theorem request_looper_concat_truncate_witness :
    (request_looper 2 pagesTwo).map Envelope.items = some (some [1, 2]) := by
  obtain ⟨e, h1, h2⟩ := request_looper_concat_truncate 2 pagesTwo (by decide)
    (by decide) (by decide)
  rw [h1, Option.map_some', h2]
  decide

theorem pageLoop_final_fields {α : Type} :
    ∀ (resps : List (Envelope α)) (acc : Option (Envelope α)) (rl : Envelope α),
      (∀ a, acc = some a → a.items.isSome = true) →
      (∀ r ∈ resps, r.items.isSome = true) →
      chainedResps resps →
      resps.getLast? = some rl →
      ∃ e, pageLoop 0 resps acc = some e ∧
        e.items = some (accItems acc ++ itemsConcat resps) ∧
        e.other = rl.other ∧
        e.page = rl.page.map (fun pg =>
          { pg with total := some (max (pg.total.getD 0)
              (accItems acc ++ itemsConcat resps).length) }) := by
  intro resps
  induction resps with
  | nil =>
    intro acc rl _ _ _ hlast
    simp at hlast
  | cons r rest ih =>
    intro acc rl hacc hitems hchain hlast
    have hr : r.items.isSome = true := hitems r (List.mem_cons_self r rest)
    have hmi := mergeResp_items acc r hacc hr
    have hmo := mergeResp_other acc r hacc hr
    have hmp := mergeResp_page acc r hacc hr
    simp only [pageLoop]
    rw [if_neg (by simp)]
    cases rest with
    | nil =>
      have hrl : r = rl := by simpa using hlast
      subst hrl
      have hres : (if nextTruthy ((mergeResp acc r).page.bind Page.next) = true
          then pageLoop 0 ([] : List (Envelope α)) (some (updateTotal (mergeResp acc r)))
          else some (updateTotal (mergeResp acc r))) =
          some (updateTotal (mergeResp acc r)) := by
        split <;> rfl
      rw [hres]
      refine ⟨updateTotal (mergeResp acc r), rfl, ?_, ?_, ?_⟩
      · rw [updateTotal_items, hmi, itemsConcat_cons]
        simp [itemsConcat]
      · rw [updateTotal_other, hmo]
      · rw [updateTotal_page, hmp, hmi, itemsConcat_cons]
        simp [itemsConcat]
    | cons y ys =>
      have hnext : nextTruthy ((mergeResp acc r).page.bind Page.next) = true := by
        rw [hmp]
        exact chainedResps_head r y ys hchain
      rw [if_pos hnext]
      have haccit : accItems (some (updateTotal (mergeResp acc r))) =
          accItems acc ++ r.items.getD [] := by
        simp [accItems, updateTotal_items, hmi]
      obtain ⟨e, he, h1, h2, h3⟩ := ih (some (updateTotal (mergeResp acc r))) rl
        (by
          intro a ha
          rw [Option.some.injEq] at ha
          rw [← ha, updateTotal_items, hmi]
          rfl)
        (fun x hx => hitems x (List.mem_cons_of_mem r hx))
        (chainedResps_cons r (y :: ys) hchain)
        (by simpa using hlast)
      refine ⟨e, he, ?_, h2, ?_⟩
      · rw [h1, haccit]
        simp [itemsConcat_cons, List.append_assoc]
      · rw [h3, haccit]
        simp [itemsConcat_cons, List.append_assoc]

/-- Claim C6 (amended): across an aggregation of two or more non-empty
chained page responses, every non-item field of the result equals the
corresponding field of the LAST merged response (each merge step replaces
the accumulator with the newest response, carrying the concatenated items
forward), except `page.total`, which ends as the maximum of the last
response's `page.total` (or 0) and the aggregated item count; earlier
responses contribute only their items. -/
theorem request_looper_fields_from_last {α : Type} (resps : List (Envelope α))
    (rl : Envelope α) (hlen : 2 ≤ resps.length)
    (hitems : ∀ r ∈ resps, r.items.isSome = true)
    (hchain : chainedResps resps)
    (hlast : resps.getLast? = some rl) :
    ∃ e, request_looper 0 resps = some e ∧
      e.items = some (itemsConcat resps) ∧
      e.other = rl.other ∧
      e.page = rl.page.map (fun pg =>
        { pg with total := some (max (pg.total.getD 0)
            (itemsConcat resps).length) }) := by
  obtain ⟨e, he, h1, h2, h3⟩ := pageLoop_final_fields resps none rl
    (by intro a ha; cases ha) hitems hchain hlast
  have hA : accItems (none : Option (Envelope α)) ++ itemsConcat resps =
      itemsConcat resps := by
    simp [accItems]
  rw [hA] at h1 h3
  rw [request_looper_eq_some 0 resps e he, if_neg (fun hn => hn.2 rfl)]
  exact ⟨e, rfl, h1, h2, h3⟩

theorem request_looper_fields_from_last_witness :
    (request_looper 0 pagesTwo).map Envelope.other = some 9 ∧
    (request_looper 0 pagesTwo).map Envelope.page =
      some (some { next := none, total := some 3 }) := by
  obtain ⟨e, he, h1, h2, h3⟩ := request_looper_fields_from_last pagesTwo
    { items := some [3], page := some { next := none, total := some 2 }, other := 9 }
    (by decide) (by decide) (by decide) (by decide)
  rw [he, Option.map_some', Option.map_some', h2, h3]
  refine ⟨rfl, ?_⟩
  decide

/-- Claim C6 (counterexample): for the chained pair `pagesTwo` (first
response has `other = 1` and `page.total = 7`, second has `other = 9` and
`page.total = 2`), the aggregate's `other` is 9, the second response's value
and not the first's, and its `page.total` is 3 (the aggregated item count),
not the maximum observed total 7 — so non-item fields do not come from the
first response. -/
theorem request_looper_first_response_loses :
    (request_looper 0 pagesTwo).map Envelope.other = some 9 ∧
    (9 : Nat) ≠ 1 ∧
    (request_looper 0 pagesTwo).map Envelope.page =
      some (some { next := none, total := some 3 }) ∧
    (some { next := none, total := some 3 } : Option Page) ≠
      some { next := some "c", total := some 7 } := by
  decide

theorem writeKey_preserves (s : Store) (p a : Nat) (k : String) (v : Int)
    (hne : a ≠ p) : (s.writeKey p k v).getD a [] = s.getD a [] := by
  unfold Store.writeKey
  simp [List.getElem?_set_ne (fun h => hne h.symm)]

theorem foldlWrites_preserve (p a : Nat) (hne : a ≠ p) :
    ∀ (wins : List (Int × Int)) (st : Store),
      (wins.foldl (fun (st2 : Store) (w : Int × Int) =>
        (st2.writeKey p "endDate" w.2).writeKey p "startDate" w.1) st).getD a [] =
      st.getD a [] := by
  intro wins
  induction wins with
  | nil => intro st; rfl
  | cons w ws ihw =>
    intro st
    rw [List.foldl_cons, ihw, writeKey_preserves _ _ _ _ _ hne,
      writeKey_preserves _ _ _ _ _ hne]

/-- Claim C10: a `request_looper` call leaves the caller-supplied params
dictionary unchanged: line 263 rebinds the local name to a copy, so the
limit clamp and every per-window startDate/endDate rewrite hit only the
private copy, and after any number of windows the dictionary at the
caller's address holds exactly its original entries. -/
theorem looper_preserves_caller_params (s : Store) (a : Nat)
    (wins : List (Int × Int)) (ha : a < s.length) :
    ((looperParamWrites s (some a) wins).2).getD a [] = s.getD a [] := by
  have hp : a ≠ s.length := by omega
  have key : ∀ (x : Dict),
      (wins.foldl (fun (st : Store) (w : Int × Int) =>
          (st.writeKey s.length "endDate" w.2).writeKey s.length "startDate" w.1)
        (match dictGet ((s ++ [x]).getD s.length []) "limit" with
          | some v => if v ≠ 0 then
              (s ++ [x]).writeKey s.length "limit" (min v 100)
            else s ++ [x]
          | none => s ++ [x])).getD a [] = s.getD a [] := by
    intro x
    rw [foldlWrites_preserve s.length a hp wins]
    have hs1 : (s ++ [x]).getD a [] = s.getD a [] := by
      simp [List.getElem?_append_left ha]
    cases hd : dictGet ((s ++ [x]).getD s.length []) "limit" with
    | none => exact hs1
    | some v =>
      dsimp only
      by_cases hv : v ≠ 0
      · rw [if_pos hv, writeKey_preserves _ _ _ _ _ hp]
        exact hs1
      · rw [if_neg hv]
        exact hs1
  unfold looperParamWrites
  dsimp only
  by_cases hemp : s.getD a [] ≠ []
  · rw [if_pos hemp]
    exact key (s.getD a [])
  · rw [if_neg hemp]
    exact key []

theorem looper_preserves_caller_params_witness :
    ((looperParamWrites storeOne (some 0) [(1, 5), (6, 10)]).2).getD 0 [] =
      [("limit", (500 : Int)), ("endDate", 40)] := by
  rw [looper_preserves_caller_params storeOne 0 [(1, 5), (6, 10)] (by decide)]
  decide

/-- Claim C9 (amended): on a result whose items all carry parseable dates,
sorting ascending then ascending again returns the same result (Python's
sort is stable, so a sorted list is a fixed point); and when additionally no
two items share the same parsed timestamp, sorting the ascending result
descending yields exactly the reverse of the ascending item sequence.  (With
tied timestamps the reverse fails, because the stable descending sort keeps
tied items in their current order while reversal swaps them.) -/
theorem sort_items_round_trip (res : AggResult)
    (hparse : res.items.all (fun it => (itemKey it).isSome) = true) :
    ∃ a, sort_items_by_date res false = some a ∧
      sort_items_by_date a false = some a ∧
      (res.items.Pairwise (fun x y => itemKeyD x ≠ itemKeyD y) →
        sort_items_by_date a true = some { a with items := a.items.reverse }) := by
  have hperm : (res.items.insertionSort (sortRel false)).Perm res.items :=
    List.perm_insertionSort _ _
  have hallS : (res.items.insertionSort (sortRel false)).all
      (fun it => (itemKey it).isSome) = true := by
    rw [List.all_eq_true] at hparse ⊢
    intro it hit
    exact hparse it (hperm.mem_iff.mp hit)
  have hsorted : List.Sorted (sortRel false) (res.items.insertionSort (sortRel false)) :=
    List.sorted_insertionSort _ _
  refine ⟨{ res with items := res.items.insertionSort (sortRel false) }, ?_, ?_, ?_⟩
  · unfold sort_items_by_date
    rw [if_pos hparse]
  · unfold sort_items_by_date
    dsimp only
    rw [if_pos hallS, List.Sorted.insertionSort_eq hsorted]
  · intro hdist
    unfold sort_items_by_date
    dsimp only
    rw [if_pos hallS]
    have hdistS : (res.items.insertionSort (sortRel false)).Pairwise
        (fun x y => itemKeyD x ≠ itemKeyD y) :=
      (List.Perm.pairwise_iff (fun h => Ne.symm h) hperm).mpr hdist
    have hpermD : ((res.items.insertionSort (sortRel false)).insertionSort
        (sortRel true)).Perm (res.items.insertionSort (sortRel false)) :=
      List.perm_insertionSort _ _
    have hsortedD : List.Sorted (sortRel true)
        ((res.items.insertionSort (sortRel false)).insertionSort (sortRel true)) :=
      List.sorted_insertionSort _ _
    have hdistD : ((res.items.insertionSort (sortRel false)).insertionSort
        (sortRel true)).Pairwise (fun x y => itemKeyD x ≠ itemKeyD y) :=
      (List.Perm.pairwise_iff (fun h => Ne.symm h) hpermD).mpr hdistS
    have hstrictD : ((res.items.insertionSort (sortRel false)).insertionSort
        (sortRel true)).Pairwise (fun x y => itemKeyD y < itemKeyD x) := by
      refine List.Pairwise.imp₂ (fun a b h1 h2 => ?_) hsortedD hdistD
      have h1le : itemKeyD b ≤ itemKeyD a := by simpa [sortRel] using h1
      omega
    have hstrictA : (res.items.insertionSort (sortRel false)).Pairwise
        (fun x y => itemKeyD x < itemKeyD y) := by
      refine List.Pairwise.imp₂ (fun a b h1 h2 => ?_) hsorted hdistS
      have h1le : itemKeyD a ≤ itemKeyD b := by simpa [sortRel] using h1
      omega
    have hstrictRev : ((res.items.insertionSort (sortRel false)).reverse).Pairwise
        (fun x y => itemKeyD y < itemKeyD x) := by
      rw [List.pairwise_reverse]
      exact hstrictA
    have hpermDR : ((res.items.insertionSort (sortRel false)).insertionSort
        (sortRel true)).Perm (res.items.insertionSort (sortRel false)).reverse :=
      hpermD.trans (res.items.insertionSort (sortRel false)).reverse_perm.symm
    haveI : IsAntisymm SortItem (fun x y => itemKeyD y < itemKeyD x) :=
      ⟨fun a b h1 h2 => absurd h1 (by omega)⟩
    have hDR := List.eq_of_perm_of_sorted hpermDR hstrictD hstrictRev
    rw [hDR]

/-- `resDistinct` sorted ascending, as an envelope value of the model. -/
theorem sort_items_round_trip_witness :
    sort_items_by_date resDistinct false = some resDistinctAsc ∧
    sort_items_by_date resDistinctAsc false = some resDistinctAsc ∧
    sort_items_by_date resDistinctAsc true =
      some { resDistinctAsc with items := resDistinctAsc.items.reverse } := by
  obtain ⟨a, h1, h2, h3⟩ := sort_items_round_trip resDistinct (by decide)
  have ha : a = resDistinctAsc := by
    have he : sort_items_by_date resDistinct false = some resDistinctAsc := by decide
    rw [h1] at he
    exact Option.some.inj he
  subst ha
  exact ⟨h1, h2, h3 (by decide)⟩

/-- Claim C9 (counterexample): `resTied` holds two items with the same
timestamp "2020-01-01" and distinct payloads 0 and 1.  Sorting it ascending
leaves it unchanged (stable sort), sorting that result descending also
leaves it unchanged (stable descending sort keeps tied items in order), yet
the reverse of the ascending item sequence swaps the two items — so
descending after ascending is NOT the exact reverse of the ascending
sequence, refuting the claim for results with tied dates. -/
theorem sort_items_tie_not_reversed :
    sort_items_by_date resTied false = some resTied ∧
    sort_items_by_date resTied true = some resTied ∧
    resTied.items.reverse ≠ resTied.items := by
  decide

end Soundcharts
